import Mathlib

/-!
Shallow embedding of the SAP-table extraction pipeline (`src/hello.py`):
the HTML field extractor (`SAPTableAnalyzer._get_fields`), the structure
normalizer with its deterministic fallback, the batch orchestrator
(`process_tables`) with its per-item fault isolation and incremental
persistence, and the `main` driver with its TCURR smoke test and
input-list loading.

External effects are modelled by explicit outcome values:
 - a fetch (`get_table_info`) either yields the parsed page content or
   `none` (the function catches every exception and returns `None`);
 - the generative call plus `json.loads` either raises, fails to parse,
   or yields a parsed JSON object;
 - a file write either succeeds or raises.
-/

set_option autoImplicit false

namespace SapPipeline

/-- One extracted field row (`field` dict built in `_get_fields`). -/
structure FieldRecord where
  name : String
  data_element : String
  type : String
  length : String
  decimals : String
deriving DecidableEq, Repr

/-- The `table_data` dict built by `get_table_info`. -/
structure TableInfo where
  table_name : String
  description : String
  fields : List FieldRecord
deriving DecidableEq, Repr

/-- A parsed JSON object as produced by `json.loads` on the transformer
output, restricted to the keys the program reads.  Each key may be absent
(`dict.get` then returns `None`, which is falsy). -/
structure JsonStructure where
  name : Option String
  description : Option String
  fields : Option (List FieldRecord)
deriving DecidableEq, Repr

/-- A row of the HTML table: either the list of its cells' raw text
(`row.find_all` followed by `.text` on each cell succeeded), or an
exception raised while parsing that row. -/
inductive HtmlRow where
  | cells (cols : List String)
  | raised (msg : String)
deriving DecidableEq, Repr

/-- Python `str.strip()` with no argument: drop leading and trailing
whitespace characters. -/
def pyStrip (s : String) : String :=
  String.mk (((s.toList.dropWhile Char.isWhitespace).reverse.dropWhile
    Char.isWhitespace).reverse)

/-- Parsed page: the first `h1` heading's text if any, and the rows of the
first `table` element if any (all `tr` rows, header included). -/
structure Soup where
  heading : Option String
  tableRows : Option (List HtmlRow)

/-- Cell-to-field mapping of one row in `_get_fields`: a row yields a
field dict iff it has at least 4 cells; cell 2 is skipped; cells 4 and 5
default to the empty string when absent.  Mirrors lines 85–92 of the
source. -/
def rowToField (cols : List String) : Option FieldRecord :=
  if 4 ≤ cols.length then
    some {
      name := pyStrip (cols.getD 0 "")
      data_element := pyStrip (cols.getD 1 "")
      type := pyStrip (cols.getD 3 "")
      length := if 4 < cols.length then pyStrip (cols.getD 4 "") else ""
      decimals := if 5 < cols.length then pyStrip (cols.getD 5 "") else ""
    }
  else none

/-- The `for row in rows` loop of `_get_fields`, with the surrounding
`try`/`except`: an exception while parsing a row aborts the loop and the
handler returns the fields accumulated so far. -/
def fields_loop : List HtmlRow → List FieldRecord → List FieldRecord
  | [], acc => acc
  | HtmlRow.raised _ :: _, acc => acc
  | HtmlRow.cells cols :: rest, acc =>
    match rowToField cols with
    | some f => fields_loop rest (acc ++ [f])
    | none => fields_loop rest acc

/-- `SAPTableAnalyzer._get_fields`: no table → empty list; otherwise skip
the header row and run the row loop.  Total: every exception is caught
inside. -/
def get_fields (soup : Soup) : List FieldRecord :=
  match soup.tableRows with
  | none => []
  | some rows => fields_loop (rows.drop 1) []

/-- `SAPTableAnalyzer._get_description`: first heading's text, trimmed;
empty string when absent (the `except` branch). -/
def get_description (soup : Soup) : String :=
  match soup.heading with
  | some h => pyStrip h
  | none => ""

/-- Python `s.lower()`: lowercase every character. -/
def pyLower (s : String) : String :=
  String.mk (s.toList.map Char.toLower)

/-- Python `s.startswith(pre)`. -/
def pyStartsWith (s pre : String) : Bool :=
  pre.toList.isPrefixOf s.toList

/-- URL built by `get_table_info`: base URL ++ lowercased name ++ ".html". -/
def BASE_URL : String := "https://leanx.eu/en/sap/table/"

def fetch_url (table_name : String) : String :=
  BASE_URL ++ pyLower table_name ++ ".html"

/-- Outcome of `generator(table_info=...)` followed by
`json.loads(result.structure)`:
 - `genError`: the generator call itself raised (propagates to the
   enclosing handler);
 - `unparseable`: the generator returned text but `json.loads` raised
   (the bare `except` triggers the fallback);
 - `parsed j`: `json.loads` succeeded with object `j`. -/
inductive GenResult where
  | genError (msg : String)
  | unparseable
  | parsed (j : JsonStructure)
deriving DecidableEq, Repr

/-- The deterministic fallback structure (lines 155–159 and 201–205):
built directly from the TableInfo's own data. -/
def fallback (ti : TableInfo) : JsonStructure :=
  { name := some ti.table_name
    description := some ti.description
    fields := some ti.fields }

/-- The generator-then-parse-or-fallback step shared by `process_tables`
and `main`: a generator exception propagates (as `.error`); a parse
failure yields the fallback; a parse success yields the parsed object. -/
def normalize_structure (ti : TableInfo) (g : GenResult) :
    Except String JsonStructure :=
  match g with
  | GenResult.genError msg => Except.error msg
  | GenResult.unparseable => Except.ok (fallback ti)
  | GenResult.parsed j => Except.ok j

/-- Python truthiness of `json_structure.get("fields")` for a
list-or-absent value: truthy iff present and non-empty. -/
def fieldsTruthy : Option (List FieldRecord) → Bool
  | some (_ :: _) => true
  | _ => false

/-- The `structures` Python dict, as an insertion-ordered association
list: entries in insertion order, at most one entry per key. -/
abbrev Structures : Type := List (String × JsonStructure)

/-- Python dict assignment `structures[k] = v` on an insertion-ordered
dict: replace the entry holding the key in place when present (keys are
unique, so the first occurrence is the only one), append at the end
otherwise. -/
def dictInsert : Structures → String → JsonStructure → Structures
  | [], k, v => [(k, v)]
  | (k1, v1) :: rest, k, v =>
    if k1 = k then (k, v) :: rest else (k1, v1) :: dictInsert rest k v

/-- Python dict read `d[k]`: value of the entry with the given key. -/
def dictLookup (k : String) : Structures → Option JsonStructure
  | [] => none
  | (k1, v) :: rest => if k1 = k then some v else dictLookup k rest

/-- Effect of a Python dict assignment on the key sequence: unchanged
when the key is present, appended otherwise. -/
def insertKey (ks : List String) (k : String) : List String :=
  if k ∈ ks then ks else ks ++ [k]

/-- Observable state of one batch run: the in-memory `structures` dict
and the last content successfully written to
`output/sap_tables_structure.json` (`none` = not yet written in this
run). -/
structure BatchState where
  structures : Structures
  persisted : Option Structures
deriving DecidableEq, Repr

def initState : BatchState := { structures := [], persisted := none }

/-- Environment-determined behaviour of one loop iteration of
`process_tables` for one identifier from the input list:
 - `fetch`: what `get_table_info` returns — `none` (it caught an
   exception and returned `None`) or the page's description and
   extracted fields;
 - `gen`: outcome of the generator call and JSON parse;
 - `persistRaises`: whether writing the progress file raises. -/
structure ItemBehavior where
  name : String
  fetch : Option (String × List FieldRecord)
  gen : GenResult
  persistRaises : Bool
deriving DecidableEq, Repr

/-- Tail of a loop iteration once a JSON structure `j` is at hand
(lines 161–171): persist only when `j.get("fields")` is truthy; the dict
entry is assigned before the file write, so a write exception (caught at
line 173) keeps the entry in memory but leaves the file untouched. -/
def step_with (st : BatchState) (name : String) (persistRaises : Bool)
    (j : JsonStructure) : BatchState × Option String :=
  if fieldsTruthy j.fields then
    let d := dictInsert st.structures name j
    if persistRaises then
      ({ structures := d, persisted := st.persisted }, some "persist raised")
    else
      ({ structures := d, persisted := some d }, none)
  else (st, none)

/-- One iteration of the `for table_name in table_names` loop of
`process_tables`.  Returns the new state and, when the iteration's
`try` block raised and the `except` at line 173 caught it, the caught
exception's message. -/
def item_step (st : BatchState) (it : ItemBehavior) :
    BatchState × Option String :=
  match it.fetch with
  | none => (st, none)
  | some (desc, flds) =>
    if flds = [] then (st, none)
    else
      match normalize_structure ⟨it.name, desc, flds⟩ it.gen with
      | Except.error e => (st, some e)
      | Except.ok j => step_with st it.name it.persistRaises j

/-- State transition of one loop iteration (exception message dropped:
it is only logged). -/
def process_one (st : BatchState) (it : ItemBehavior) : BatchState :=
  (item_step st it).1

/-- Run the batch loop from a given state. -/
def run_from (st : BatchState) (items : List ItemBehavior) : BatchState :=
  items.foldl process_one st

/-- `process_tables`: run the loop from the initial state. -/
def batchRun (items : List ItemBehavior) : BatchState :=
  run_from initState items

/-- Messages of the exceptions caught (and logged) by the loop-level
handler, in order, starting from a given state. -/
def log_from (st : BatchState) : List ItemBehavior → List String
  | [] => []
  | it :: rest =>
    (item_step st it).2.toList ++ log_from (process_one st it) rest

/-- `process_tables` with its log of caught exceptions. -/
def batch_with_log (items : List ItemBehavior) :
    BatchState × List String :=
  items.foldl
    (fun acc it =>
      let r := item_step acc.1 it
      (r.1, acc.2 ++ r.2.toList))
    (initState, [])

/-- An iteration succeeds (adds an entry to `structures`) iff the fetch
returned data, the fields are non-empty, the generator did not raise,
and the resulting JSON structure has truthy fields. -/
def item_succeeds (it : ItemBehavior) : Bool :=
  match it.fetch with
  | none => false
  | some (_, flds) =>
    if flds = [] then false
    else
      match it.gen with
      | GenResult.genError _ => false
      | GenResult.unparseable => true
      | GenResult.parsed j => fieldsTruthy j.fields

/-- The JSON structure a successful iteration stores for its identifier. -/
def schemaOf (it : ItemBehavior) : JsonStructure :=
  match it.fetch with
  | some (desc, flds) =>
    match it.gen with
    | GenResult.parsed j => j
    | _ => fallback ⟨it.name, desc, flds⟩
  | none => fallback ⟨it.name, "", []⟩

/-- Concrete sample iteration used by witnesses: the fetch succeeds with
one field, the transformer output is unparseable (so the fallback fires),
and the progress write succeeds. -/
def sampleItem (n : String) : ItemBehavior :=
  { name := n
    fetch := some ("Tab. sample", [⟨"MANDT", "MANDT", "CLNT", "3", "0"⟩])
    gen := GenResult.unparseable
    persistRaises := false }

/-- Concrete sample iteration for the same identifier as
`sampleItem "T1"` but with different page data, to exhibit overwriting. -/
def genOkItem : ItemBehavior :=
  { name := "T1"
    fetch := some ("Tab. second", [⟨"WAERS", "WAERS", "CUKY", "5", "0"⟩])
    gen := GenResult.unparseable
    persistRaises := false }

/-- Concrete sample iteration whose generator call raises. -/
def genErrItem : ItemBehavior :=
  { name := "T2"
    fetch := some ("Tab. sample", [⟨"MANDT", "MANDT", "CLNT", "3", "0"⟩])
    gen := GenResult.genError "boom"
    persistRaises := false }

/-- Python `s.strip(chars)`: drop from both ends every character that
belongs to the given set. -/
def pyStripChars (s : String) (cs : List Char) : String :=
  String.mk (((s.toList.dropWhile (cs.contains ·)).reverse.dropWhile
    (cs.contains ·)).reverse)

/-- The cleaning applied to each line of `sap_tables.csv` (line 231):
`line.strip().strip('",').strip()`. -/
def clean_line (line : String) : String :=
  pyStrip (pyStripChars (pyStrip line) ['"', ','])

/-- The input-list reading loop (lines 229–233): keep each cleaned line
that is non-empty and does not start with the header token
`"table_name"`. -/
def load_tables : List String → List String
  | [] => []
  | line :: rest =>
    let t := clean_line line
    if t ≠ "" ∧ ¬ pyStartsWith t "table_name" then t :: load_tables rest
    else load_tables rest

/-- Modelled from the spec: the input-list loading as the claim words it,
excluding blank lines and the line *equal to* the literal header token
(the source instead excludes every line that *starts with* the token).
Used only to compare against `load_tables`. -/
def load_tables_claim (lines : List String) : List String :=
  (lines.map clean_line).filter (fun t => t ≠ "" ∧ t ≠ "table_name")

/-- Observable outcome of one `main()` run:
 - `tcurr_file`: content written to `output/tcurr_structure.json`
   (`none` = never written this run);
 - `batch_ran`: whether `process_tables` over the input list was invoked;
 - `batch_file`: final content of `output/sap_tables_structure.json`
   (`none` = never written this run). -/
structure MainResult where
  tcurr_file : Option Structures
  batch_ran : Bool
  batch_file : Option Structures
deriving DecidableEq, Repr

/-- `main()` (lines 179–257).  Inputs model the environment:
`smoke_fetch`/`smoke_gen` are the outcomes of the TCURR fetch and of the
generator call for it; `csv` is the content of `sap_tables.csv` as a line
list (`none` = `FileNotFoundError`); `bhv` gives each batch identifier's
fetch and generator outcomes (batch file writes are taken to succeed).
The smoke test performs no field check: whatever structure it obtains is
written to the test file.  A smoke fetch failure or a generator raise
during the smoke test returns before the input list is ever opened. -/
def main_run (smoke_fetch : Option (String × List FieldRecord))
    (smoke_gen : GenResult) (csv : Option (List String))
    (bhv : String → Option (String × List FieldRecord) × GenResult) :
    MainResult :=
  match smoke_fetch with
  | none => { tcurr_file := none, batch_ran := false, batch_file := none }
  | some (desc, flds) =>
    match normalize_structure ⟨"TCURR", desc, flds⟩ smoke_gen with
    | Except.error _ =>
      { tcurr_file := none, batch_ran := false, batch_file := none }
    | Except.ok j =>
      let tfile := some [("TCURR", j)]
      match csv with
      | none => { tcurr_file := tfile, batch_ran := false, batch_file := none }
      | some lines =>
        let tables := load_tables lines
        if tables = [] then
          { tcurr_file := tfile, batch_ran := false, batch_file := none }
        else
          let items := tables.map
            (fun n => { name := n, fetch := (bhv n).1, gen := (bhv n).2,
                        persistRaises := false : ItemBehavior })
          { tcurr_file := tfile, batch_ran := true,
            batch_file := some (batchRun items).structures }

/-! ### Lemmas about the field-row loop -/

lemma fields_loop_ok (good : List (List String)) (acc : List FieldRecord) :
    fields_loop (good.map HtmlRow.cells) acc = acc ++ good.filterMap rowToField := by
  induction good generalizing acc with
  | nil => simp [fields_loop]
  | cons g gs ih =>
    cases h : rowToField g <;>
      simp [fields_loop, h, ih, List.filterMap_cons]

lemma fields_loop_raised (good : List (List String)) (e : String)
    (rest : List HtmlRow) (acc : List FieldRecord) :
    fields_loop (good.map HtmlRow.cells ++ HtmlRow.raised e :: rest) acc
      = acc ++ good.filterMap rowToField := by
  induction good generalizing acc with
  | nil => simp [fields_loop]
  | cons g gs ih =>
    cases h : rowToField g <;>
      simp [fields_loop, h, ih, List.filterMap_cons]

/-! ### Claim theorems: field extractor -/

/-- C6: field-row extraction never raises to its caller: with no data
table the result is the empty field sequence, and an exception while
parsing a row yields exactly the fields accumulated from the rows parsed
before it (possibly none), for any rows that follow. -/
theorem C6_extractor_never_raises (hd : Option String)
    (good : List (List String)) (e : String) (rest : List HtmlRow)
    (hdr : HtmlRow) :
    get_fields ⟨hd, none⟩ = []
    ∧ get_fields ⟨hd, some (hdr :: (good.map HtmlRow.cells
        ++ HtmlRow.raised e :: rest))⟩ = good.filterMap rowToField := by
  refine ⟨rfl, ?_⟩
  show fields_loop (good.map HtmlRow.cells ++ HtmlRow.raised e :: rest) [] = _
  simp [fields_loop_raised]

/-- C7: for every row of the first data table after the header row, a
field record is produced iff the row has at least 4 cells; cell 0 maps to
name, 1 to data element, 3 to type (cell 2 skipped), cell 4 to length only
when at least 5 cells are present (else empty), cell 5 to decimals only
when at least 6 cells are present (else empty), every value stripped of
surrounding whitespace. -/
theorem C7_cell_mapping (hdr : HtmlRow) (rows : List (List String)) :
    get_fields ⟨none, some (hdr :: rows.map HtmlRow.cells)⟩
      = rows.filterMap rowToField
    ∧ ∀ cols : List String,
        ((rowToField cols).isSome ↔ 4 ≤ cols.length)
        ∧ (4 ≤ cols.length →
            rowToField cols = some {
              name := pyStrip (cols.getD 0 "")
              data_element := pyStrip (cols.getD 1 "")
              type := pyStrip (cols.getD 3 "")
              length := if 5 ≤ cols.length then pyStrip (cols.getD 4 "") else ""
              decimals := if 6 ≤ cols.length then pyStrip (cols.getD 5 "") else "" }) := by
  constructor
  · show fields_loop (rows.map HtmlRow.cells) [] = _
    simp [fields_loop_ok]
  · intro cols
    constructor
    · unfold rowToField
      split <;> simp_all
    · intro h4
      unfold rowToField
      rw [if_pos h4]
      rfl

/-- Witness for C7 at a concrete 4-cell row. -/
theorem C7_cell_mapping_witness :
    rowToField ["MANDT ", " WAERS", "x", "CUKY"]
      = some { name := "MANDT", data_element := "WAERS", type := "CUKY",
               length := "", decimals := "" } := by
  have h := ((C7_cell_mapping (HtmlRow.cells []) []).2
    ["MANDT ", " WAERS", "x", "CUKY"]).2 (by decide)
  rw [h]
  decide

/-! ### Claim theorems: normalizer fallback -/

/-- C1: when the transformer output cannot be parsed as JSON, the
normalization step deterministically produces the fallback structure,
whose name, description and fields are exactly those of the TableInfo
(a lossless identity mapping). -/
theorem C1_fallback_is_identity (ti : TableInfo) (_h : ti.fields ≠ []) :
    normalize_structure ti GenResult.unparseable = Except.ok (fallback ti)
    ∧ (fallback ti).name = some ti.table_name
    ∧ (fallback ti).description = some ti.description
    ∧ (fallback ti).fields = some ti.fields :=
  ⟨rfl, rfl, rfl, rfl⟩

/-- Witness for C1 at a concrete one-field TableInfo. -/
theorem C1_fallback_is_identity_witness :
    normalize_structure ⟨"TCURR", "Tab. of exchange rates",
        [⟨"MANDT", "MANDT", "CLNT", "3", "0"⟩]⟩ GenResult.unparseable
      = Except.ok (fallback ⟨"TCURR", "Tab. of exchange rates",
        [⟨"MANDT", "MANDT", "CLNT", "3", "0"⟩]⟩) :=
  (C1_fallback_is_identity _ (by decide)).1

/-! ### Claim theorems: main driver -/

/-- C5: when the smoke-test fetch fails, or its generator call raises,
`main` terminates without entering the batch loop: the batch flag is
false, neither output document is written, and the result does not depend
on the input list at all (it is never read). -/
theorem C5_smoke_failure_aborts_run (g : GenResult)
    (csv : Option (List String))
    (bhv : String → Option (String × List FieldRecord) × GenResult)
    (desc e : String) (flds : List FieldRecord) :
    main_run none g csv bhv
      = { tcurr_file := none, batch_ran := false, batch_file := none }
    ∧ main_run (some (desc, flds)) (GenResult.genError e) csv bhv
      = { tcurr_file := none, batch_ran := false, batch_file := none } :=
  ⟨rfl, rfl⟩

/-- C2 counterexample: the smoke-test path performs no field check, so a
TCURR page with an empty field table plus an unparseable transformer
output persists a schema with zero fields to the smoke-test document. -/
theorem C2_cex_smoke_persists_zero_fields :
    (main_run (some ("Tab. TCURR", [])) GenResult.unparseable (some [])
        (fun _ => (none, GenResult.unparseable))).tcurr_file
      = some [("TCURR", { name := some "TCURR",
                          description := some "Tab. TCURR",
                          fields := some [] })] := rfl

/-- C8 counterexample: the loader drops every line *starting with* the
header token, not only the line equal to it: the identifier
`table_name_2` is silently dropped, while the claim's reading keeps it. -/
theorem C8_cex_header_is_dropped_by_start :
    load_tables ["table_name_2"] = []
    ∧ load_tables_claim ["table_name_2"] = ["table_name_2"] := by
  constructor <;> decide

/-! ### Lemmas about the dict model -/

lemma dictInsert_keys (d : Structures) (k : String) (v : JsonStructure) :
    (dictInsert d k v).map Prod.fst = insertKey (d.map Prod.fst) k := by
  induction d with
  | nil => simp [dictInsert, insertKey]
  | cons p rest ih =>
    obtain ⟨k1, v1⟩ := p
    by_cases h : k1 = k
    · subst h; simp [dictInsert, insertKey]
    · by_cases hm : k ∈ rest.map Prod.fst
      · simp [dictInsert, insertKey, h, ih, hm, Ne.symm h]
      · simp [dictInsert, insertKey, h, ih, hm, Ne.symm h]

lemma dictLookup_dictInsert (d : Structures) (k : String)
    (v : JsonStructure) : dictLookup k (dictInsert d k v) = some v := by
  induction d with
  | nil => simp [dictInsert, dictLookup]
  | cons p rest ih =>
    obtain ⟨k1, v1⟩ := p
    by_cases h : k1 = k
    · subst h; simp [dictInsert, dictLookup]
    · simp [dictInsert, dictLookup, h, ih]

lemma mem_dictInsert (d : Structures) (k : String) (v : JsonStructure)
    (p : String × JsonStructure) :
    p ∈ dictInsert d k v → p ∈ d ∨ p = (k, v) := by
  induction d with
  | nil => intro h; simpa [dictInsert] using h
  | cons q rest ih =>
    obtain ⟨k1, v1⟩ := q
    intro h
    by_cases hk : k1 = k
    · subst hk
      simp only [dictInsert, if_true, eq_self_iff_true, List.mem_cons,
        ite_true] at h
      rcases h with h | h
      · right; exact h
      · left; exact List.mem_cons_of_mem _ h
    · simp only [dictInsert, if_neg hk, List.mem_cons] at h
      rcases h with h | h
      · left; rw [h]; exact List.mem_cons_self _ _
      · rcases ih h with h' | h'
        · left; exact List.mem_cons_of_mem _ h'
        · right; exact h'

lemma mem_foldl_insertKey (l : List String) (a : List String) (k : String) :
    k ∈ l.foldl insertKey a ↔ k ∈ a ∨ k ∈ l := by
  induction l generalizing a with
  | nil => simp
  | cons b bs ih =>
    rw [List.foldl_cons, ih]
    unfold insertKey
    by_cases hb : b ∈ a
    · have hba : k = b → k ∈ a := fun h => h ▸ hb
      simp only [if_pos hb, List.mem_cons]
      tauto
    · simp only [if_neg hb, List.mem_append, List.mem_singleton,
        List.mem_cons]
      tauto

lemma nodup_foldl_insertKey (l : List String) (a : List String)
    (h : a.Nodup) : (l.foldl insertKey a).Nodup := by
  induction l generalizing a with
  | nil => simpa
  | cons b bs ih =>
    rw [List.foldl_cons]
    apply ih
    unfold insertKey
    by_cases hb : b ∈ a
    · simpa [hb]
    · rw [if_neg hb]
      simp [List.nodup_append, h, hb]

/-! ### Lemmas about one batch iteration -/

lemma item_succeeds_truthy (it : ItemBehavior)
    (h : item_succeeds it = true) :
    fieldsTruthy (schemaOf it).fields = true := by
  unfold item_succeeds at h
  unfold schemaOf
  cases hf : it.fetch with
  | none => rw [hf] at h; exact absurd h (by simp)
  | some p =>
    obtain ⟨desc, flds⟩ := p
    rw [hf] at h
    cases hfl : flds with
    | nil => rw [hfl] at h; simp at h
    | cons a as =>
      cases hg : it.gen with
      | genError e => rw [hg] at h; simp [hfl] at h
      | unparseable => simp [fallback, hfl, fieldsTruthy]
      | parsed j => rw [hg] at h; simpa [hfl] using h

lemma process_one_eq (st : BatchState) (it : ItemBehavior) :
    process_one st it =
      if item_succeeds it then
        { structures := dictInsert st.structures it.name (schemaOf it)
          persisted :=
            if it.persistRaises then st.persisted
            else some (dictInsert st.structures it.name (schemaOf it)) }
      else st := by
  unfold process_one item_step item_succeeds schemaOf
  cases hf : it.fetch with
  | none => simp
  | some p =>
    obtain ⟨desc, flds⟩ := p
    cases hfl : flds with
    | nil => simp
    | cons a as =>
      cases hg : it.gen with
      | genError e => simp [normalize_structure]
      | unparseable =>
        cases hr : it.persistRaises <;>
          simp [normalize_structure, step_with, fallback, fieldsTruthy, hr]
      | parsed j =>
        simp only [normalize_structure, step_with]
        cases ht : fieldsTruthy j.fields with
        | false => simp [ht]
        | true => cases hr : it.persistRaises <;> simp [ht, hr]

lemma run_from_cons (st : BatchState) (it : ItemBehavior)
    (items : List ItemBehavior) :
    run_from st (it :: items) = run_from (process_one st it) items := rfl

lemma run_from_append (st : BatchState) (xs ys : List ItemBehavior) :
    run_from st (xs ++ ys) = run_from (run_from st xs) ys := by
  unfold run_from
  exact List.foldl_append _ _ xs ys

lemma run_from_keys (items : List ItemBehavior) (st : BatchState) :
    (run_from st items).structures.map Prod.fst
      = ((items.filter item_succeeds).map ItemBehavior.name).foldl insertKey
          (st.structures.map Prod.fst) := by
  induction items generalizing st with
  | nil => rfl
  | cons it rest ih =>
    rw [run_from_cons, ih]
    cases h : item_succeeds it with
    | false => rw [process_one_eq, if_neg (by simp [h]), List.filter_cons_of_neg (by simp [h])]
    | true =>
      rw [process_one_eq, if_pos (by simp [h]),
        List.filter_cons_of_pos (by simp [h]), List.map_cons,
        List.foldl_cons]
      congr 1
      exact dictInsert_keys _ _ _

lemma run_from_persisted (items : List ItemBehavior) (st : BatchState)
    (hp : ∀ it ∈ items, it.persistRaises = false)
    (h0 : st.persisted = none ∨ st.persisted = some st.structures) :
    (run_from st items).persisted = none
      ∨ (run_from st items).persisted = some (run_from st items).structures := by
  induction items generalizing st with
  | nil => exact h0
  | cons it rest ih =>
    rw [run_from_cons]
    refine ih _ (fun x hx => hp x (List.mem_cons_of_mem _ hx)) ?_
    rw [process_one_eq]
    cases h : item_succeeds it with
    | false => simpa [h] using h0
    | true =>
      right
      simp [h, hp it (List.mem_cons_self _ _)]

lemma run_from_truthy (items : List ItemBehavior) (st : BatchState)
    (h1 : ∀ p ∈ st.structures, fieldsTruthy p.2.fields = true)
    (h2 : ∀ d, st.persisted = some d →
      ∀ p ∈ d, fieldsTruthy p.2.fields = true) :
    (∀ p ∈ (run_from st items).structures, fieldsTruthy p.2.fields = true)
    ∧ (∀ d, (run_from st items).persisted = some d →
        ∀ p ∈ d, fieldsTruthy p.2.fields = true) := by
  induction items generalizing st with
  | nil => exact ⟨h1, h2⟩
  | cons it rest ih =>
    rw [run_from_cons]
    have hstep := process_one_eq st it
    cases h : item_succeeds it with
    | false =>
      rw [h] at hstep
      simp only [Bool.false_eq_true, if_false] at hstep
      rw [hstep]
      exact ih st h1 h2
    | true =>
      rw [h] at hstep
      simp only [if_true] at hstep
      rw [hstep]
      apply ih
      · intro p hm
        rcases mem_dictInsert _ _ _ p hm with hm' | hm'
        · exact h1 p hm'
        · rw [hm']
          exact item_succeeds_truthy it h
      · cases hr : it.persistRaises with
        | true =>
          simp only [hr, if_true]
          exact h2
        | false =>
          simp only [hr, Bool.false_eq_true, if_false]
          intro d hd p hm
          have hd' : dictInsert st.structures it.name (schemaOf it) = d :=
            Option.some_inj.mp hd
          rw [← hd'] at hm
          rcases mem_dictInsert _ _ _ p hm with hm' | hm'
          · exact h1 p hm'
          · rw [hm']
            exact item_succeeds_truthy it h

/-! ### Lemmas about the exception log -/

lemma batch_with_log_from (items : List ItemBehavior) (st : BatchState)
    (lg : List String) :
    items.foldl
      (fun acc it =>
        let r := item_step acc.1 it
        (r.1, acc.2 ++ r.2.toList))
      (st, lg)
      = (run_from st items, lg ++ log_from st items) := by
  induction items generalizing st lg with
  | nil => simp [run_from, log_from]
  | cons it rest ih =>
    rw [List.foldl_cons, ih]
    simp [run_from_cons, log_from, process_one]

lemma log_from_append (xs ys : List ItemBehavior) (st : BatchState) :
    log_from st (xs ++ ys)
      = log_from st xs ++ log_from (run_from st xs) ys := by
  induction xs generalizing st with
  | nil => simp [log_from, run_from]
  | cons x xs ih =>
    rw [List.cons_append, log_from, log_from, run_from_cons, ih,
      List.append_assoc]

/-! ### Claim theorems: batch orchestrator -/

/-- C3: an exception caught during one identifier's iteration (generator
raise or persistence raise) never escapes `process_tables`: the run over
`pre ++ it :: suf` still processes every item of `suf` from the state the
faulting iteration left behind and returns the accumulated result, and
the caught exception's message is recorded in the log. -/
theorem C3_batch_absorbs_item_errors (pre suf : List ItemBehavior)
    (it : ItemBehavior) (e : String)
    (h : (item_step (batchRun pre) it).2 = some e) :
    (batch_with_log (pre ++ it :: suf)).1
      = run_from (process_one (batchRun pre) it) suf
    ∧ e ∈ (batch_with_log (pre ++ it :: suf)).2 := by
  have h1 : batch_with_log (pre ++ it :: suf)
      = (run_from initState (pre ++ it :: suf),
         [] ++ log_from initState (pre ++ it :: suf)) :=
    batch_with_log_from _ _ _
  rw [List.nil_append] at h1
  constructor
  · rw [h1]
    show run_from initState (pre ++ it :: suf) = _
    rw [run_from_append, run_from_cons]
    rfl
  · rw [h1]
    show e ∈ log_from initState (pre ++ it :: suf)
    rw [log_from_append pre (it :: suf) initState, log_from]
    have : e ∈ (item_step (run_from initState pre) it).2.toList := by
      rw [show run_from initState pre = batchRun pre from rfl, h]
      exact List.mem_singleton_self e
    exact List.mem_append_right _ (List.mem_append_left _ this)

/-- Witness for C3: a generator raise on the first identifier is caught,
logged, and the second identifier is still processed. -/
theorem C3_batch_absorbs_item_errors_witness :
    (batch_with_log [genErrItem, sampleItem "T1"]).1
      = run_from (process_one (batchRun []) genErrItem) [sampleItem "T1"]
    ∧ "boom" ∈ (batch_with_log [genErrItem, sampleItem "T1"]).2 :=
  C3_batch_absorbs_item_errors [] [sampleItem "T1"] genErrItem "boom"
    (by decide)

/-- C4 counterexample: an input list with the same identifier twice, both
iterations succeeding, has k = 2 successful iterations but the persisted
document holds a single entry, not k. -/
theorem C4_cex_duplicate_identifiers :
    (([sampleItem "T1", sampleItem "T1"].filter item_succeeds).length = 2)
    ∧ (batchRun [sampleItem "T1", sampleItem "T1"]).persisted
        = some [("T1", { name := some "T1",
                         description := some "Tab. sample",
                         fields := some [⟨"MANDT", "MANDT", "CLNT", "3", "0"⟩] })]
    ∧ ((batchRun [sampleItem "T1", sampleItem "T1"]).persisted.getD []).length
        ≠ ([sampleItem "T1", sampleItem "T1"].filter item_succeeds).length := by
  refine ⟨by decide, by decide, by decide⟩

/-- C4 amended: when no progress write raises, the persisted document is
always a full snapshot of the current result set; its keys are exactly the
distinct successful identifiers (one entry per distinct identifier, so
exactly k entries when the k successful identifiers are distinct); and a
failing iteration changes nothing, so previously persisted entries are
never lost. -/
theorem C4_amended_snapshot_per_distinct_id (items : List ItemBehavior)
    (hp : ∀ it ∈ items, it.persistRaises = false) :
    ((batchRun items).structures.map Prod.fst).Nodup
    ∧ (∀ k, k ∈ (batchRun items).structures.map Prod.fst
        ↔ k ∈ (items.filter item_succeeds).map ItemBehavior.name)
    ∧ ((batchRun items).persisted = none
        ∨ (batchRun items).persisted = some (batchRun items).structures)
    ∧ (∀ st it, item_succeeds it = false → process_one st it = st) := by
  have hkeys := run_from_keys items initState
  refine ⟨?_, ?_, ?_, ?_⟩
  · rw [show batchRun items = run_from initState items from rfl, hkeys]
    exact nodup_foldl_insertKey _ _ (by simp [initState])
  · intro k
    rw [show batchRun items = run_from initState items from rfl, hkeys,
      mem_foldl_insertKey]
    simp [initState]
  · exact run_from_persisted items initState hp (Or.inl rfl)
  · intro st it h
    rw [process_one_eq, h]
    simp

/-- Witness for C4 amended at a concrete single-success batch. -/
theorem C4_amended_snapshot_per_distinct_id_witness :
    "T1" ∈ (batchRun [sampleItem "T1"]).structures.map Prod.fst :=
  ((C4_amended_snapshot_per_distinct_id [sampleItem "T1"]
    (by decide)).2.1 "T1").mpr (by decide)

/-- C10: the result set holds at most one entry per identifier: a later
successful iteration for an identifier overwrites the stored schema under
that key, the key sequence never holds duplicates, and a key is present
exactly when some successful iteration carried it — so the number of
entries is the number of distinct successful identifiers. -/
theorem C10_one_entry_per_identifier (pre suf : List ItemBehavior)
    (it : ItemBehavior) (hs : item_succeeds it = true) :
    dictLookup it.name (run_from initState (pre ++ [it])).structures
      = some (schemaOf it)
    ∧ ((batchRun (pre ++ it :: suf)).structures.map Prod.fst).Nodup
    ∧ (∀ k, k ∈ (batchRun (pre ++ it :: suf)).structures.map Prod.fst
        ↔ k ∈ ((pre ++ it :: suf).filter item_succeeds).map
            ItemBehavior.name) := by
  refine ⟨?_, ?_, ?_⟩
  · rw [run_from_append, show run_from (run_from initState pre) [it]
        = process_one (run_from initState pre) it from rfl,
      process_one_eq, hs]
    simp only [if_true]
    exact dictLookup_dictInsert _ _ _
  · rw [show batchRun (pre ++ it :: suf)
        = run_from initState (pre ++ it :: suf) from rfl, run_from_keys]
    exact nodup_foldl_insertKey _ _ (by simp [initState])
  · intro k
    rw [show batchRun (pre ++ it :: suf)
        = run_from initState (pre ++ it :: suf) from rfl, run_from_keys,
      mem_foldl_insertKey]
    simp [initState]

/-- Witness for C10: two successful iterations for the same identifier;
the stored schema is the later one's. -/
theorem C10_one_entry_per_identifier_witness :
    dictLookup "T1"
        (run_from initState [sampleItem "T1", genOkItem]).structures
      = some (schemaOf genOkItem) :=
  (C10_one_entry_per_identifier [sampleItem "T1"] [] genOkItem
    (by decide)).1

/-- C2 amended: the batch path never stores or persists a schema whose
field list fails the non-emptiness check — every entry of the in-memory
result set, and of any persisted snapshot of it, has truthy (non-empty)
fields.  (The smoke-test path has no such check; see the counterexample.) -/
theorem C2_amended_batch_entries_nonempty (items : List ItemBehavior)
    (k : String) (j : JsonStructure) (d : Structures) :
    ((k, j) ∈ (batchRun items).structures → fieldsTruthy j.fields = true)
    ∧ ((batchRun items).persisted = some d → (k, j) ∈ d →
        fieldsTruthy j.fields = true) := by
  have h := run_from_truthy items initState
    (by simp [initState]) (by simp [initState])
  exact ⟨fun hm => h.1 (k, j) hm, fun hd hm => h.2 d hd (k, j) hm⟩

/-- Witness for C2 amended at a concrete one-item batch. -/
theorem C2_amended_batch_entries_nonempty_witness :
    fieldsTruthy (schemaOf (sampleItem "T1")).fields = true :=
  (C2_amended_batch_entries_nonempty [sampleItem "T1"] "T1"
    (schemaOf (sampleItem "T1")) []).1 (by decide)

/-- C9: the fetch URL is built from the lowercased identifier while the
result-set key and the fallback schema's name keep the identifier's
original case: two identifiers equal up to case fetch the same URL yet
produce two distinct result-set entries, each named with its own
spelling. -/
theorem C9_url_lowercased_key_original (a b d : String)
    (f : List FieldRecord) (h1 : pyLower a = pyLower b) (h2 : a ≠ b)
    (hf : f ≠ []) :
    fetch_url a = fetch_url b
    ∧ (batchRun
        [{ name := a, fetch := some (d, f), gen := GenResult.unparseable,
           persistRaises := false },
         { name := b, fetch := some (d, f), gen := GenResult.unparseable,
           persistRaises := false }]).structures
      = [(a, fallback ⟨a, d, f⟩), (b, fallback ⟨b, d, f⟩)] := by
  constructor
  · unfold fetch_url
    rw [h1]
  · obtain ⟨x, xs, rfl⟩ : ∃ x xs, f = x :: xs := by
      cases f with
      | nil => exact absurd rfl hf
      | cons x xs => exact ⟨x, xs, rfl⟩
    simp [batchRun, run_from, process_one, item_step, normalize_structure,
      step_with, fieldsTruthy, dictInsert, fallback, h2]

/-- Witness for C9: `TCURR` and `tcurr` share a URL but occupy two
entries. -/
theorem C9_url_lowercased_key_original_witness :
    fetch_url "TCURR" = fetch_url "tcurr" :=
  (C9_url_lowercased_key_original "TCURR" "tcurr" "Tab. TCURR"
    [⟨"MANDT", "MANDT", "CLNT", "3", "0"⟩]
    (by decide) (by decide) (by decide)).1

/-! ### Claim theorems: input-list loading -/

lemma load_tables_eq_filter (lines : List String) :
    load_tables lines = (lines.map clean_line).filter
      (fun t => t ≠ "" ∧ ¬ pyStartsWith t "table_name") := by
  induction lines with
  | nil => rfl
  | cons l ls ih =>
    simp only [load_tables, List.map_cons, List.filter_cons]
    by_cases h : clean_line l ≠ "" ∧ ¬ pyStartsWith (clean_line l) "table_name"
    · rw [if_pos h, if_pos (by simpa using h), ih]
    · rw [if_neg h, if_neg (by simpa using h), ih]

/-- C8 amended: the loader yields, in order, each line cleaned by
trim / strip-quote-comma / trim, keeping exactly the cleaned lines that
are non-blank and do not start with the literal header token (so the
header line itself and anything else beginning with it are excluded);
and a missing input file, or an empty loaded list, means the batch is
never run. -/
theorem C8_amended_input_loading (lines : List String)
    (sf : Option (String × List FieldRecord)) (sg : GenResult)
    (bhv : String → Option (String × List FieldRecord) × GenResult) :
    load_tables lines = (lines.map clean_line).filter
        (fun t => t ≠ "" ∧ ¬ pyStartsWith t "table_name")
    ∧ (main_run sf sg none bhv).batch_ran = false
    ∧ (load_tables lines = [] →
        (main_run sf sg (some lines) bhv).batch_ran = false) := by
  refine ⟨load_tables_eq_filter lines, ?_, ?_⟩
  · cases sf with
    | none => rfl
    | some p =>
      obtain ⟨desc, flds⟩ := p
      cases sg <;> rfl
  · intro h
    cases sf with
    | none => rfl
    | some p =>
      obtain ⟨desc, flds⟩ := p
      cases sg <;> simp [main_run, normalize_structure, h]

/-- Witness for C8 amended: a file holding one blank-ish line loads to the
empty list and the batch is not run. -/
theorem C8_amended_input_loading_witness :
    (main_run none GenResult.unparseable (some [" \", "])
        (fun _ => (none, GenResult.unparseable))).batch_ran = false :=
  (C8_amended_input_loading [" \", "] none GenResult.unparseable
    (fun _ => (none, GenResult.unparseable))).2.2 (by decide)

end SapPipeline
